import Mathlib

/-!
Verification development for the TowneCodex generator engine
(`src/townecodex/generation/generator_engine.py`) and its configuration
schema (`src/townecodex/generation/schema.py`).

The Python sources are shallowly embedded: dataclasses become structures,
Python `int` becomes `Int`, `Optional[T]` becomes `Option T`, Python sets
become `Finset Int`, and raised `GeneratorError`s become the `Except`
error branch.  The `random` module is modelled by an abstract state-passing
random source (`RandModel`), constrained exactly by the documented
behaviour of `random.randint` (inclusive-range result) and `random.sample`
(a without-replacement subsequence of the population, of the requested
size).  The `EntryRepository` database handle is modelled by an abstract
`search` function from filters (plus page, size, sort arguments) to entry
lists.

One slip in the source is embedded as it stands: `_generate_bucket`
constructs `EntryFilters` with a `type_equals` keyword that the dataclass
does not declare, so every call raises `TypeError` before the repository
query.  `_generate_bucket` is embedded accordingly, and the
refinement-and-selection code that follows it in the source is embedded
separately, as a function of its inputs, under `bucket_selection_phase`.
-/

namespace TowneCodex

/-! ## JSON values

Plain JSON trees, used to model Python dicts produced by
`dataclasses.asdict` and consumed by `config_from_dict`.  A JSON text and
its parse tree are identified: `json.dumps` / `json.loads` of the standard
library are mutually inverse on the JSON-representable values produced
here, so `config_to_json` is modelled as producing the tree itself.
-/

inductive JValue where
  | null : JValue
  | bool : Bool → JValue
  | int : Int → JValue
  | str : String → JValue
  | arr : List JValue → JValue
  | obj : List (String × JValue) → JValue

/-- Python `dict` lookup: first binding of the key wins. -/
def jLookup : List (String × JValue) → String → Option JValue
  | [], _ => none
  | (k, v) :: rest, key => if k = key then some v else jLookup rest key

/-- Python `d.get(key, dflt)`: the default applies only when the key is absent;
a key bound to `null` (Python `None`) returns `null`. -/
def jGetD (d : List (String × JValue)) (key : String) (dflt : JValue) : JValue :=
  (jLookup d key).getD dflt

/-- Python `d.get(key)`: absent keys give Python `None`, i.e. JSON `null`. -/
def jGet (d : List (String × JValue)) (key : String) : JValue :=
  jGetD d key JValue.null

/-! ## Data model (`models.py` `Entry`, `repos.py` `EntryFilters`)

Only the `Entry` columns read by the generator engine are modelled
(`id`, `name`, `type`, `rarity`, `value`, `attunement_required`); the
remaining columns are never consulted by the engine.
-/

structure Entry where
  id : Int
  name : String
  type : String
  rarity : String
  value : Option Int
  attunement_required : Bool
deriving DecidableEq, Repr

/-- `repos.EntryFilters` (a plain dataclass of optional filters). -/
structure EntryFilters where
  name_contains : Option String := none
  type_contains : Option String := none
  rarity_in : Option (List String) := none
  attunement_required : Option Bool := none
  text : Option String := none
  general_type_in : Option (List String) := none
  specific_tag : Option String := none

/-! ## Configuration schema (`schema.py`)

The dataclass field annotations say `min_count : int = 0` and
`max_count : int = -1`, but `config_from_dict` stores whatever JSON held
(in particular `None` for a JSON `null`), and the engine explicitly
guards `bucket.min_count or 0` and `bucket.max_count is None`; the
fields are therefore modelled as `Option Int`.
-/

structure BucketConfig where
  name : String
  min_count : Option Int := some 0
  max_count : Option Int := some (-1)
  allowed_rarities : Option (List String) := none
  type_contains_any : Option (List String) := none
  min_value : Option Int := none
  max_value : Option Int := none
  attunement_required : Option Bool := none
  prefer_unique : Bool := true
  extra : List (String × JValue) := []

structure GeneratorConfig where
  label : Option String := none
  min_items : Option Int := none
  max_items : Option Int := none
  min_total_value : Option Int := none
  max_total_value : Option Int := none
  global_prefer_unique : Bool := true
  random_seed : Option Int := none
  buckets : List BucketConfig := []
  notes : Option String := none
  extra : List (String × JValue) := []

/-! ### Serialization (`config_to_dict`, `config_from_dict`, JSON wrappers) -/

def encOptInt : Option Int → JValue
  | none => JValue.null
  | some n => JValue.int n

def encOptStr : Option String → JValue
  | none => JValue.null
  | some s => JValue.str s

def encOptListStr : Option (List String) → JValue
  | none => JValue.null
  | some l => JValue.arr (l.map JValue.str)

def encOptBool : Option Bool → JValue
  | none => JValue.null
  | some b => JValue.bool b

def decOptInt : JValue → Option Int
  | JValue.int n => some n
  | _ => none

def decOptStr : JValue → Option String
  | JValue.str s => some s
  | _ => none

def decStr (dflt : String) : JValue → String
  | JValue.str s => s
  | _ => dflt

def decOptListStr : JValue → Option (List String)
  | JValue.arr xs => some (xs.filterMap decOptStr)
  | _ => none

def decOptBool : JValue → Option Bool
  | JValue.bool b => some b
  | _ => none

/-- Python truthiness-compatible reading of a stored boolean: `null`
(Python `None`) is falsy.  `config_to_dict` only ever emits `bool` here. -/
def decBool : JValue → Bool
  | JValue.bool b => b
  | JValue.null => false
  | _ => true

/-- Python `b.get("extra") or` an empty dict: `null` and the empty object are
both falsy and yield the empty dict. -/
def decObj : JValue → List (String × JValue)
  | JValue.obj fs => fs
  | _ => []

/-- `dataclasses.asdict` on a `BucketConfig`, recursing into lists and dicts. -/
def bucket_to_dict (b : BucketConfig) : JValue :=
  JValue.obj
    [ ("name", JValue.str b.name)
    , ("min_count", encOptInt b.min_count)
    , ("max_count", encOptInt b.max_count)
    , ("allowed_rarities", encOptListStr b.allowed_rarities)
    , ("type_contains_any", encOptListStr b.type_contains_any)
    , ("min_value", encOptInt b.min_value)
    , ("max_value", encOptInt b.max_value)
    , ("attunement_required", encOptBool b.attunement_required)
    , ("prefer_unique", JValue.bool b.prefer_unique)
    , ("extra", JValue.obj b.extra) ]

/-- One element of `config_from_dict`'s bucket loop: rebuild a
`BucketConfig` from its dict, with the source's per-field defaults. -/
def bucket_from_dict (j : JValue) : BucketConfig :=
  let b := decObj j
  { name := decStr "" (jGetD b "name" (JValue.str ""))
  , min_count := decOptInt (jGetD b "min_count" (JValue.int 0))
  , max_count := decOptInt (jGetD b "max_count" (JValue.int 0))
  , allowed_rarities := decOptListStr (jGet b "allowed_rarities")
  , type_contains_any := decOptListStr (jGet b "type_contains_any")
  , min_value := decOptInt (jGet b "min_value")
  , max_value := decOptInt (jGet b "max_value")
  , attunement_required := decOptBool (jGet b "attunement_required")
  , prefer_unique := decBool (jGetD b "prefer_unique" (JValue.bool true))
  , extra := decObj (jGet b "extra") }

/-- `config_to_dict`: `dataclasses.asdict` on a `GeneratorConfig`. -/
def config_to_dict (cfg : GeneratorConfig) : JValue :=
  JValue.obj
    [ ("label", encOptStr cfg.label)
    , ("min_items", encOptInt cfg.min_items)
    , ("max_items", encOptInt cfg.max_items)
    , ("min_total_value", encOptInt cfg.min_total_value)
    , ("max_total_value", encOptInt cfg.max_total_value)
    , ("global_prefer_unique", JValue.bool cfg.global_prefer_unique)
    , ("random_seed", encOptInt cfg.random_seed)
    , ("buckets", JValue.arr (cfg.buckets.map bucket_to_dict))
    , ("notes", encOptStr cfg.notes)
    , ("extra", JValue.obj cfg.extra) ]

/-- `config_from_dict`: rebuild a `GeneratorConfig`.
`data.get("buckets") or` the empty list treats `null` and the empty
array alike. -/
def config_from_dict (j : JValue) : GeneratorConfig :=
  let d := decObj j
  let buckets_data := match jGet d "buckets" with
    | JValue.arr xs => xs
    | _ => []
  { label := decOptStr (jGet d "label")
  , min_items := decOptInt (jGet d "min_items")
  , max_items := decOptInt (jGet d "max_items")
  , min_total_value := decOptInt (jGet d "min_total_value")
  , max_total_value := decOptInt (jGet d "max_total_value")
  , global_prefer_unique := decBool (jGetD d "global_prefer_unique" (JValue.bool true))
  , random_seed := decOptInt (jGet d "random_seed")
  , buckets := buckets_data.map bucket_from_dict
  , notes := decOptStr (jGet d "notes")
  , extra := decObj (jGet d "extra") }

/-- `config_to_json`: `json.dumps` of `config_to_dict`, with the JSON text
identified with its parse tree (see module comment). -/
def config_to_json (cfg : GeneratorConfig) : JValue :=
  config_to_dict cfg

/-- `config_from_json`: `json.loads` followed by the `isinstance(data, dict)`
check and `config_from_dict`. -/
def config_from_json (j : JValue) : Except String GeneratorConfig :=
  match j with
  | JValue.obj _ => Except.ok (config_from_dict j)
  | _ => Except.error "GeneratorConfig JSON must decode to an object"

deriving instance DecidableEq for Except

/-! ## Generator engine (`generator_engine.py`) -/

/-- `GeneratorError`: raised when a generator config cannot be satisfied. -/
structure GeneratorError where
  msg : String
deriving DecidableEq, Repr

/-- A Python exception escaping the engine: the `TypeError` raised at the
`EntryFilters` construction in `_generate_bucket`, or a `GeneratorError`
raised deliberately (by the dead selection code or the final validation). -/
inductive EngineExc where
  | typeError (msg : String) : EngineExc
  | generatorError (err : GeneratorError) : EngineExc
deriving DecidableEq, Repr

/-- Abstract model of the `random` module, threaded as explicit state `σ`.
`seed` models `random.seed`, `randint` models `random.randint` (inclusive
bounds), `sample` models `random.sample` (selection without replacement). -/
structure RandModel (σ : Type) where
  seed : Int → σ
  randint : Nat → Nat → σ → Nat × σ
  sample : List Entry → Nat → σ → List Entry × σ

/-- `random.randint(a, b)` returns an integer in `[a, b]` when `a ≤ b`. -/
def RandintInRange {σ : Type} (M : RandModel σ) : Prop :=
  ∀ lo hi s, lo ≤ hi → lo ≤ (M.randint lo hi s).1 ∧ (M.randint lo hi s).1 ≤ hi

/-- `random.sample(l, k)` draws without replacement: the result is a
permutation of a sublist of the population. -/
def SampleSubperm {σ : Type} (M : RandModel σ) : Prop :=
  ∀ l k s, List.Subperm ((M.sample l k s).1) l

/-- `random.sample(l, k)` returns exactly `k` elements when `k ≤ l.length`. -/
def SampleLength {σ : Type} (M : RandModel σ) : Prop :=
  ∀ l k s, k ≤ l.length → ((M.sample l k s).1).length = k

/-- Python `int(e.value or 0)`: an unknown (or zero) value counts as 0. -/
def val (e : Entry) : Int :=
  e.value.getD 0

/-- `_current_totals`: (number of entries, sum of their values). The source's
single accumulation loop is rendered as a length and a sum. -/
def _current_totals (entries : List Entry) : Nat × Int :=
  (entries.length, (entries.map val).sum)

/-- Python ASCII lowercasing of one character (`str.lower`). -/
def lowerChar (c : Char) : Char :=
  if 65 ≤ c.toNat ∧ c.toNat ≤ 90 then Char.ofNat (c.toNat + 32) else c

/-- A string lowercased, as a character list. -/
def lowerList (s : String) : List Char :=
  s.data.map lowerChar

/-- Python `needle in hay` substring membership. -/
def containsSub (hay needle : List Char) : Bool :=
  decide (List.IsInfix needle hay)

/-- Substring membership on strings, for reasoning about error messages. -/
def str_contains (hay needle : String) : Bool :=
  containsSub hay.data needle.data

/-- `min_count = max(0, int(bucket.min_count or 0))`. -/
def effective_min_count (bucket : BucketConfig) : Nat :=
  (max 0 (bucket.min_count.getD 0)).toNat

/-- `max_count`: `None` or `int(raw_max) <= 0` means no explicit upper bound. -/
def effective_max_count (bucket : BucketConfig) : Option Int :=
  match bucket.max_count with
  | none => none
  | some v => if v ≤ 0 then none else some v

/-- `remaining_item_slots = max(0, config.max_items - current_count)`
when `config.max_items` is set. -/
def remaining_slots_of (config : GeneratorConfig) (current_results : List Entry) : Option Nat :=
  config.max_items.map (fun mi => (mi - ((_current_totals current_results).1 : Int)).toNat)

/-- `remaining_budget = max(0, config.max_total_value - current_value)`
when `config.max_total_value` is set. -/
def remaining_budget_of (config : GeneratorConfig) (current_results : List Entry) : Option Int :=
  config.max_total_value.map (fun mv => max 0 (mv - (_current_totals current_results).2))

/-- `matches_bucket`, the in-Python refinement filter: type substring
(case-insensitive, any of the listed substrings) and inclusive value
bounds; entries of unknown value are rejected whenever a value bound is
set. -/
def matches_bucket (bucket : BucketConfig) (e : Entry) : Bool :=
  (let tca := bucket.type_contains_any.getD []
   if tca.isEmpty then true
   else tca.any (fun sub => containsSub (lowerList e.type) (lowerList sub))) &&
  (match e.value with
   | none => bucket.min_value.isNone && bucket.max_value.isNone
   | some v =>
     (match bucket.min_value with
      | none => true
      | some mn => decide (mn ≤ v)) &&
     (match bucket.max_value with
      | none => true
      | some mx => decide (v ≤ mx)))

/-- Step 3: drop already-consumed ids when uniqueness is requested
globally or by the bucket. -/
def unique_filtered (config : GeneratorConfig) (bucket : BucketConfig)
    (used_ids : Finset Int) (l : List Entry) : List Entry :=
  if config.global_prefer_unique || bucket.prefer_unique then
    l.filter (fun e => decide (e.id ∉ used_ids))
  else l

/-- Steps 2 and 3 combined: in-Python refinement then uniqueness filter. -/
def bucket_filtered (config : GeneratorConfig) (bucket : BucketConfig)
    (used_ids : Finset Int) (candidates : List Entry) : List Entry :=
  unique_filtered config bucket used_ids (candidates.filter (matches_bucket bucket))

/-- Stable ascending insertion (auxiliary to `sortLe`). -/
def insertLe {α : Type} (le : α → α → Bool) (x : α) : List α → List α
  | [] => [x]
  | y :: ys => if le y x then y :: insertLe le x ys else x :: y :: ys

/-- Stable ascending sort, modelling Python `sorted` / `list.sort`. -/
def sortLe {α : Type} (le : α → α → Bool) : List α → List α
  | [] => []
  | x :: xs => insertLe le x (sortLe le xs)

/-- Comparison on entries by value, modelling `key=val` sorting. -/
def le_val (a b : Entry) : Bool :=
  decide (val a ≤ val b)

/-- The greedy cheapest-first budget loop: how many of the given values
(ascending) fit within `remaining_budget`, accumulating `running`. -/
def _budget_can_take (remaining_budget : Int) : Int → List Int → Nat
  | _, [] => 0
  | running, v :: vs =>
    if running + v > remaining_budget then 0
    else _budget_can_take remaining_budget (running + v) vs + 1

/-- Step 4: `feasible_max`, the min of pool size, bucket `max_count` bound,
remaining global item slots, and the cheapest-first budget cap. -/
def feasible_max_of (max_count : Option Int) (remaining_item_slots : Option Nat)
    (remaining_budget : Option Int) (filtered : List Entry) : Nat :=
  let m1 := filtered.length
  let m2 := match max_count with
    | none => m1
    | some mc => min m1 mc.toNat
  let m3 := match remaining_item_slots with
    | none => m2
    | some s => min m2 s
  match remaining_budget with
  | none => m3
  | some b => min m3 (_budget_can_take b 0 (sortLe (fun x y => decide (x ≤ y)) (filtered.map val)))

/-- Python `max(selected, key=val)` tail: the first value-maximal element
(ties keep the earlier element, replacement only on strict increase). -/
def pick_max_go (best : Entry) : List Entry → Entry
  | [] => best
  | e :: es => pick_max_go (if val e > val best then e else best) es

/-- Python `max(selected, key=val)`; `none` models the `ValueError` that
`max` raises on an empty sequence. -/
def pick_max_by_val : List Entry → Option Entry
  | [] => none
  | e :: es => some (pick_max_go e es)

/-! Error message builders.  The source wraps the bucket name in single
quote characters; the model omits the quote characters themselves. -/

def msg_no_candidates (bucket : BucketConfig) (min_count : Nat) : String :=
  "Bucket " ++ bucket.name ++ " requires at least " ++ toString min_count ++
    ", but 0 candidates match filters."

def msg_cannot_meet (bucket : BucketConfig) (min_count feasible_max : Nat)
    (remaining_item_slots : Option Nat) (remaining_budget : Option Int) : String :=
  "Bucket " ++ bucket.name ++ " cannot meet min_count=" ++ toString min_count ++
    ". Feasible max is " ++ toString feasible_max ++ " after filters" ++
    (match remaining_item_slots with
     | none => ""
     | some s => ", remaining_item_slots=" ++ toString s) ++
    (match remaining_budget with
     | none => ""
     | some b => ", remaining_budget=" ++ toString b) ++ "."

def msg_cannot_pick (bucket : BucketConfig) (k : Nat) (budget : Int) : String :=
  "Bucket " ++ bucket.name ++ " cannot pick " ++ toString k ++
    " items within remaining_budget=" ++ toString budget ++ "."

def msg_cannot_reduce (bucket : BucketConfig) (k : Nat) (budget : Int) : String :=
  "Bucket " ++ bucket.name ++ " cannot pick " ++ toString k ++
    " items within remaining_budget=" ++ toString budget ++
    " (cannot reduce selection cost further)."

/-- The budget-repair `while total > budget` loop of step 5: repeatedly
replace the most expensive selected entry by the cheapest remaining one
while the total exceeds the budget.  The source's unbounded loop is
rendered with explicit fuel; `none` (fuel exhaustion) is proved
unreachable for the fuel `_generate_bucket` supplies. -/
def budget_repair_loop (bucket : BucketConfig) (k : Nat) (budget : Int) :
    Nat → List Entry → List Entry → Int → Option (Except GeneratorError (List Entry))
  | 0, _, _, _ => none
  | fuel + 1, selected, remaining, total =>
    if total ≤ budget then some (Except.ok selected)
    else
      match remaining with
      | [] => some (Except.error ⟨msg_cannot_pick bucket k budget⟩)
      | rem_min :: rest =>
        match pick_max_by_val selected with
        | none => some (Except.error ⟨"ValueError: max arg is an empty sequence"⟩)
        | some sel_max =>
          if val rem_min ≥ val sel_max then
            some (Except.error ⟨msg_cannot_reduce bucket k budget⟩)
          else
            budget_repair_loop bucket k budget fuel
              (selected.erase sel_max ++ [rem_min])
              (sortLe le_val (rest ++ [sel_max]))
              (total - val sel_max + val rem_min)

/-- The `if total > budget` guard of step 5 around the repair loop: when
the initial total exceeds the budget, run the loop on the remaining
candidates sorted by value ascending, as in the source. -/
def repair_phase (bucket : BucketConfig) (k : Nat) (budget : Int)
    (initial remaining : List Entry) : Except GeneratorError (List Entry) :=
  let total := (initial.map val).sum
  if total > budget then
    match budget_repair_loop bucket k budget ((total - budget).toNat + 1)
        initial (sortLe le_val remaining) total with
    | none => Except.error ⟨"unreachable: loop fuel exhausted"⟩
    | some (Except.error e) => Except.error e
    | some (Except.ok selected) => Except.ok selected
  else Except.ok initial

/-- Step 5, budgeted branch: initial sample of size `k` (the whole pool
when `k` covers it), then the budget-repair phase. -/
def select_budgeted {σ : Type} (M : RandModel σ) (bucket : BucketConfig)
    (filtered : List Entry) (k : Nat) (budget : Int) (rng : σ) :
    Except GeneratorError (List Entry × σ) :=
  let s := if k ≥ filtered.length then (filtered, rng) else M.sample filtered k rng
  let initial := s.1
  let selected_ids : Finset Int := (initial.map Entry.id).toFinset
  let remaining := filtered.filter (fun e => decide (e.id ∉ selected_ids))
  match repair_phase bucket k budget initial remaining with
  | Except.error e => Except.error e
  | Except.ok selected => Except.ok (selected, s.2)

/-- `used_ids.add(int(e.id))` over a list of picked entries. -/
def add_ids (used : Finset Int) (l : List Entry) : Finset Int :=
  l.foldl (fun u e => insert e.id u) used

/-- The refinement-and-selection phase of `_generate_bucket` (source steps 2
to 5: in-Python filtering, uniqueness, feasibility, target draw and
selection), embedded as a function of the candidate rows the repository
query supplies.  In the source as written this code is unreachable —
`_generate_bucket` raises `TypeError` at the `EntryFilters` construction
first, see `_generate_bucket` below — but it is the selection logic the
spec describes, and it is embedded here line by line as a function of its
inputs.  The Python mutation of the caller's `used_ids` set is modelled
by returning the updated set alongside the picked entries and the random
state. -/
def bucket_selection_phase {σ : Type} (M : RandModel σ)
    (bucket : BucketConfig) (config : GeneratorConfig) (used_ids : Finset Int)
    (current_results : List Entry) (candidates : List Entry) (rng : σ) :
    Except GeneratorError (List Entry × Finset Int × σ) :=
  let min_count := effective_min_count bucket
  let remaining_item_slots := remaining_slots_of config current_results
  let remaining_budget := remaining_budget_of config current_results
  let filtered := bucket_filtered config bucket used_ids candidates
  if filtered.isEmpty then
    if min_count > 0 then Except.error ⟨msg_no_candidates bucket min_count⟩
    else Except.ok ([], used_ids, rng)
  else
    let available := filtered.length
    let feasible_max :=
      feasible_max_of (effective_max_count bucket) remaining_item_slots remaining_budget filtered
    if feasible_max < min_count then
      Except.error ⟨msg_cannot_meet bucket min_count feasible_max remaining_item_slots remaining_budget⟩
    else
      let r1 := M.randint min_count feasible_max rng
      let target_count := r1.1
      if target_count = 0 then Except.ok ([], used_ids, r1.2)
      else
        match remaining_budget with
        | none =>
          let s := if target_count < available then M.sample filtered target_count r1.2
                   else (filtered, r1.2)
          Except.ok (s.1, add_ids used_ids s.1, s.2)
        | some budget =>
          match select_budgeted M bucket filtered target_count budget r1.2 with
          | Except.error e => Except.error e
          | Except.ok (selected, rng2) =>
            Except.ok (selected, add_ids used_ids selected, rng2)

set_option linter.unusedVariables false in
/-- `_generate_bucket` as the source executes it.  Lines 109-128 compute the
bucket range and the remaining global caps (pure locals), and line 131
then constructs `EntryFilters(name_contains=None, type_equals=None, ...)`.
`repos.EntryFilters` declares no `type_equals` field, so this call raises
`TypeError` unconditionally — before the repository query, the in-memory
filtering, any selection, and any `used_ids` update.  The selection logic
that follows in the source is `bucket_selection_phase`. -/
def _generate_bucket {σ : Type} (M : RandModel σ)
    (search : EntryFilters → Nat → Nat → String → List Entry)
    (bucket : BucketConfig) (config : GeneratorConfig) (used_ids : Finset Int)
    (current_results : List Entry) (rng : σ) :
    Except EngineExc (List Entry × Finset Int × σ) :=
  Except.error (EngineExc.typeError
    "EntryFilters.__init__ got an unexpected keyword argument type_equals")

/-- If `config.random_seed` is set, the random source is seeded once for the
whole call; otherwise the ambient random state is used as-is. -/
def init_rng {σ : Type} (M : RandModel σ) (config : GeneratorConfig) (ambient : σ) : σ :=
  match config.random_seed with
  | some s => M.seed s
  | none => ambient

/-- The bucket loop of `run_generator`: run each bucket in order, extending
`results` with the picked entries and threading `used_ids` and the random
state. -/
def run_buckets {σ : Type} (M : RandModel σ)
    (search : EntryFilters → Nat → Nat → String → List Entry)
    (config : GeneratorConfig) :
    List BucketConfig → List Entry → Finset Int → σ →
    Except EngineExc (List Entry × Finset Int × σ)
  | [], results, used, rng => Except.ok (results, used, rng)
  | bucket :: rest, results, used, rng =>
    match _generate_bucket M search bucket config used results rng with
    | Except.error e => Except.error e
    | Except.ok (picked, used2, rng2) =>
      run_buckets M search config rest (results ++ picked) used2 rng2

/-- An upper-bound check: error when the bound is set and exceeded. -/
def check_gt (label : String) (x : Int) (bound : Option Int) : Option GeneratorError :=
  match bound with
  | none => none
  | some b => if x > b then some ⟨label ++ toString x ++ " > " ++ toString b⟩ else none

/-- A lower-bound check: error when the bound is set and not met. -/
def check_lt (label : String) (x : Int) (bound : Option Int) : Option GeneratorError :=
  match bound with
  | none => none
  | some b => if x < b then some ⟨label ++ toString x ++ " < " ++ toString b⟩ else none

/-- The final strict validation of `run_generator`, in source order:
`max_items`, `max_total_value`, `min_items`, `min_total_value`. -/
def final_validate (config : GeneratorConfig) (results : List Entry) :
    Except GeneratorError (List Entry) :=
  let t := _current_totals results
  let count : Int := (t.1 : Int)
  let total_value : Int := t.2
  match check_gt "Global max_items violated after generation: " count config.max_items with
  | some e => Except.error e
  | none =>
    match check_gt "Global max_total_value violated after generation: " total_value
        config.max_total_value with
    | some e => Except.error e
    | none =>
      match check_lt "Global min_items not met: " count config.min_items with
      | some e => Except.error e
      | none =>
        match check_lt "Global min_total_value not met: " total_value
            config.min_total_value with
        | some e => Except.error e
        | none => Except.ok results

/-- All four global bounds hold for the given results. -/
def bounds_ok (config : GeneratorConfig) (results : List Entry) : Bool :=
  let t := _current_totals results
  (match config.max_items with
   | none => true
   | some mi => decide ((t.1 : Int) ≤ mi)) &&
  (match config.max_total_value with
   | none => true
   | some mv => decide (t.2 ≤ mv)) &&
  (match config.min_items with
   | none => true
   | some mi => decide (mi ≤ (t.1 : Int))) &&
  (match config.min_total_value with
   | none => true
   | some mv => decide (mv ≤ t.2))

/-- `run_generator`: seed (or keep) the random state, run every bucket,
then validate the global bounds strictly (final-validation failures raise
`GeneratorError`). -/
def run_generator {σ : Type} (M : RandModel σ)
    (search : EntryFilters → Nat → Nat → String → List Entry)
    (config : GeneratorConfig) (ambient : σ) :
    Except EngineExc (List Entry) :=
  match run_buckets M search config config.buckets [] ∅ (init_rng M config ambient) with
  | Except.error e => Except.error e
  | Except.ok (results, _, _) =>
    match final_validate config results with
    | Except.error g => Except.error (EngineExc.generatorError g)
    | Except.ok l => Except.ok l

/-! ## Concrete instances used by the witnesses -/

/-- A deterministic random model: `randint` answers the lower bound,
`sample` takes a prefix. -/
def RandLo : RandModel Unit :=
  { seed := fun _ => ()
  , randint := fun lo _ s => (lo, s)
  , sample := fun l k s => (l.take k, s) }

/-- A deterministic random model: `randint` answers the upper bound,
`sample` takes a prefix. -/
def RandHi : RandModel Unit :=
  { seed := fun _ => ()
  , randint := fun _ hi s => (hi, s)
  , sample := fun l k s => (l.take k, s) }

/-- A deterministic random model over a visible `Nat` state, to exhibit
seed-determinism against differing ambient states. -/
def RandNat : RandModel Nat :=
  { seed := fun s => s.toNat
  , randint := fun lo _ s => (lo, s + 1)
  , sample := fun l k s => (l.take k, s + 7) }

def entA : Entry :=
  { id := 1, name := "Axe", type := "Weapon (martial)", rarity := "Common"
  , value := some 10, attunement_required := false }

def entB : Entry :=
  { id := 2, name := "Bow", type := "Weapon (ranged)", rarity := "Common"
  , value := some 4, attunement_required := false }

def entC : Entry :=
  { id := 3, name := "Cloak", type := "Wondrous item", rarity := "Rare"
  , value := some 7, attunement_required := true }

/-- A repository whose search always yields the same two weapon rows. -/
def searchAB : EntryFilters → Nat → Nat → String → List Entry :=
  fun _ _ _ _ => [entA, entB]

/-- A repository whose search always yields three rows. -/
def searchABC : EntryFilters → Nat → Nat → String → List Entry :=
  fun _ _ _ _ => [entA, entB, entC]

def bktMain : BucketConfig :=
  { name := "main", min_count := some 1, max_count := some 1 }

def bktTriple : BucketConfig :=
  { name := "triple", min_count := some 3, max_count := some 3 }

def bktTyped : BucketConfig :=
  { name := "typed", min_count := some 1, max_count := some 1
  , type_contains_any := some ["weapon"], min_value := some 5 }

def bktZeroMax : BucketConfig :=
  { name := "zeromax", min_count := some 0, max_count := some 0 }

def bktOneMax : BucketConfig :=
  { name := "onemax", min_count := some 0, max_count := some 1 }

def cfgPlain : GeneratorConfig :=
  { buckets := [bktMain] }

def cfgBudget5 : GeneratorConfig :=
  { max_total_value := some 5, buckets := [bktMain] }

/-- A bucket-less config with a satisfiable global bound: the only kind of
config on which `run_generator` returns rather than raising. -/
def cfgEmptyOk : GeneratorConfig :=
  { max_items := some 3, buckets := [] }

/-- A bucket-less config whose `min_items` bound the empty result violates. -/
def cfgMinOneEmpty : GeneratorConfig :=
  { min_items := some 1, buckets := [] }

/-- A bucket-less config with a fixed random seed. -/
def cfgSeededEmpty : GeneratorConfig :=
  { random_seed := some 42, buckets := [] }

/-! ## Auxiliary lemmas -/

theorem subperm_nodup {α : Type} {l1 l2 : List α} (h : List.Subperm l1 l2)
    (h2 : l2.Nodup) : l1.Nodup := by
  obtain ⟨l, hp, hs⟩ := h
  exact hp.nodup_iff.mp (hs.nodup h2)

theorem subperm_map {α β : Type} (f : α → β) {l1 l2 : List α}
    (h : List.Subperm l1 l2) : List.Subperm (l1.map f) (l2.map f) := by
  obtain ⟨l, hp, hs⟩ := h
  exact ⟨l.map f, hp.map f, hs.map f⟩

theorem insertLe_perm {α : Type} (le : α → α → Bool) (x : α) (l : List α) :
    List.Perm (insertLe le x l) (x :: l) := by
  induction l with
  | nil => simp [insertLe]
  | cons y ys ih =>
    simp only [insertLe]
    by_cases h : le y x
    · simp only [h, if_true]
      exact (ih.cons y).trans (List.Perm.swap x y ys)
    · simp [h]

theorem sortLe_perm {α : Type} (le : α → α → Bool) (l : List α) :
    List.Perm (sortLe le l) l := by
  induction l with
  | nil => simp [sortLe]
  | cons x xs ih =>
    exact (insertLe_perm le x (sortLe le xs)).trans (ih.cons x)

theorem pick_max_go_mem (best : Entry) (l : List Entry) :
    pick_max_go best l = best ∨ pick_max_go best l ∈ l := by
  induction l generalizing best with
  | nil => simp [pick_max_go]
  | cons e es ih =>
    simp only [pick_max_go]
    rcases ih (if val e > val best then e else best) with h | h
    · by_cases hc : val e > val best
      · right; rw [h]; simp [hc]
      · left; rw [h]; simp [hc]
    · right; exact List.mem_cons_of_mem e h

theorem pick_max_mem {l : List Entry} {m : Entry}
    (h : pick_max_by_val l = some m) : m ∈ l := by
  cases l with
  | nil => simp [pick_max_by_val] at h
  | cons e es =>
    simp only [pick_max_by_val, Option.some.injEq] at h
    rcases pick_max_go_mem e es with h2 | h2
    · rw [← h]; rw [h2]; exact List.mem_cons_self e es
    · rw [← h]; exact List.mem_cons_of_mem e h2

theorem add_ids_mem (l : List Entry) (u : Finset Int) (x : Int) :
    x ∈ add_ids u l ↔ x ∈ u ∨ x ∈ l.map Entry.id := by
  induction l generalizing u with
  | nil => simp [add_ids]
  | cons e es ih =>
    simp only [add_ids, List.foldl_cons, List.map_cons, List.mem_cons]
    rw [show (List.foldl (fun u e => insert e.id u) (insert e.id u) es) =
      add_ids (insert e.id u) es from rfl, ih]
    simp only [Finset.mem_insert]
    tauto

theorem add_ids_nil (u : Finset Int) : add_ids u [] = u := rfl

/-- The key multiset bookkeeping of one repair-loop swap. -/
theorem swap_perm {sel : List Entry} {smax : Entry} (rmin : Entry)
    (rest : List Entry) (h : smax ∈ sel) :
    List.Perm ((sel.erase smax ++ [rmin]) ++ (rest ++ [smax])) (sel ++ rmin :: rest) := by
  have h1 : List.Perm sel (smax :: sel.erase smax) := List.perm_cons_erase h
  refine List.perm_iff_count.mpr ?_
  intro a
  have hc := List.perm_iff_count.mp h1 a
  simp only [List.count_append, List.count_cons, List.count_singleton,
    List.count_nil] at hc ⊢
  split_ifs at hc ⊢ <;> omega

theorem sum_erase_mem {sel : List Entry} {smax : Entry} (h : smax ∈ sel) :
    ((sel.erase smax).map val).sum = (sel.map val).sum - val smax := by
  have h1 : List.Perm sel (smax :: sel.erase smax) := List.perm_cons_erase h
  have h2 := (h1.map val).sum_eq
  simp only [List.map_cons, List.sum_cons] at h2
  omega

theorem length_erase_mem {sel : List Entry} {smax : Entry} (h : smax ∈ sel) :
    (sel.erase smax).length + 1 = sel.length := by
  have h1 := List.length_erase_of_mem h
  have h2 : sel ≠ [] := List.ne_nil_of_mem h
  have h3 : 0 < sel.length := List.length_pos.mpr h2
  omega

/-! ## Budget-repair loop lemmas -/

theorem budget_repair_loop_total (bucket : BucketConfig) (k : Nat) (budget : Int) :
    ∀ fuel sel rem total, (total - budget).toNat < fuel →
      (budget_repair_loop bucket k budget fuel sel rem total).isSome := by
  intro fuel
  induction fuel with
  | zero => intro sel rem total h; omega
  | succ n ih =>
    intro sel rem total h
    simp only [budget_repair_loop]
    by_cases h1 : total ≤ budget
    · simp [h1]
    · simp only [h1, if_false]
      match rem with
      | [] => simp
      | rmin :: rest =>
        match hm : pick_max_by_val sel with
        | none => simp
        | some smax =>
          by_cases h2 : val rmin ≥ val smax
          · simp [h2]
          · simp only [h2, if_false]
            exact ih _ _ _ (by omega)

theorem budget_repair_loop_ok (bucket : BucketConfig) (k : Nat) (budget : Int) :
    ∀ fuel sel rem total out,
      budget_repair_loop bucket k budget fuel sel rem total = some (Except.ok out) →
      out.length = sel.length ∧ List.Subperm out (sel ++ rem) ∧
        ((sel.map val).sum = total → (out.map val).sum ≤ budget) := by
  intro fuel
  induction fuel with
  | zero => intro sel rem total out h; simp [budget_repair_loop] at h
  | succ n ih =>
    intro sel rem total out h
    simp only [budget_repair_loop] at h
    by_cases h1 : total ≤ budget
    · simp only [h1, if_true, Option.some.injEq, Except.ok.injEq] at h
      subst h
      refine ⟨rfl, (List.sublist_append_left sel rem).subperm, ?_⟩
      intro hs; omega
    · simp only [h1, if_false] at h
      match rem with
      | [] => simp at h
      | rmin :: rest =>
        match hm : pick_max_by_val sel with
        | none => rw [hm] at h; simp at h
        | some smax =>
          rw [hm] at h
          by_cases h2 : val rmin ≥ val smax
          · simp [h2] at h
          · simp only [h2, if_false] at h
            have hmem : smax ∈ sel := pick_max_mem hm
            obtain ⟨hlen, hsub, hsum⟩ := ih _ _ _ _ h
            have hperm1 : List.Perm (sortLe le_val (rest ++ [smax])) (rest ++ [smax]) :=
              sortLe_perm le_val (rest ++ [smax])
            have hperm2 : List.Perm
                ((sel.erase smax ++ [rmin]) ++ sortLe le_val (rest ++ [smax]))
                (sel ++ rmin :: rest) :=
              ((List.Perm.append_left _ hperm1).trans (swap_perm rmin rest hmem))
            constructor
            · rw [hlen]
              simp only [List.length_append, List.length_singleton]
              have := length_erase_mem hmem
              omega
            constructor
            · exact hsub.trans hperm2.subperm
            · intro hst
              apply hsum
              simp only [List.map_append, List.sum_append, List.map_cons,
                List.sum_cons, List.map_nil, List.sum_nil]
              have := sum_erase_mem hmem
              omega

/-! ## Budgeted-selection lemmas -/

theorem repair_phase_ok {bucket : BucketConfig} {k : Nat} {budget : Int}
    {initial remaining out : List Entry}
    (h : repair_phase bucket k budget initial remaining = Except.ok out) :
    out.length = initial.length ∧
      List.Subperm out (initial ++ sortLe le_val remaining) ∧
      (out.map val).sum ≤ budget := by
  unfold repair_phase at h
  dsimp only at h
  split at h
  · rename_i ht
    split at h
    · exact absurd h (by simp)
    · exact absurd h (by simp)
    · rename_i selected heq
      simp only [Except.ok.injEq] at h
      subst h
      obtain ⟨h1, h2, h3⟩ := budget_repair_loop_ok bucket k budget _ _ _ _ _ heq
      exact ⟨h1, h2, h3 rfl⟩
  · rename_i ht
    simp only [Except.ok.injEq] at h
    subst h
    exact ⟨rfl, (List.sublist_append_left _ _).subperm, by omega⟩

/-- Anything subpermuted from an initial pick plus the disjoint remainder
of the pool stays inside the pool, and inherits id-distinctness from it. -/
theorem picked_from_pool {initial remaining out filtered : List Entry}
    (hinit : List.Subperm initial filtered)
    (hrem : List.Sublist remaining filtered)
    (hdisj : ∀ e ∈ remaining, e.id ∉ initial.map Entry.id)
    (hsub : List.Subperm out (initial ++ sortLe le_val remaining)) :
    (∀ e ∈ out, e ∈ filtered) ∧
      ((filtered.map Entry.id).Nodup → (out.map Entry.id).Nodup) := by
  have hsortperm : List.Perm (sortLe le_val remaining) remaining := sortLe_perm le_val remaining
  constructor
  · intro e he
    rcases List.mem_append.mp (hsub.subset he) with h2 | h2
    · exact hinit.subset h2
    · exact hrem.subset (hsortperm.subset h2)
  · intro hnd
    have hids : List.Subperm (out.map Entry.id)
        ((initial ++ sortLe le_val remaining).map Entry.id) := subperm_map Entry.id hsub
    apply subperm_nodup hids
    rw [List.map_append, List.nodup_append]
    refine ⟨subperm_nodup (subperm_map Entry.id hinit) hnd, ?_, ?_⟩
    · exact ((hsortperm.map Entry.id).nodup_iff).mpr
        (subperm_nodup (subperm_map Entry.id hrem.subperm) hnd)
    · intro x hx1 hx2
      obtain ⟨e2, he2, he2x⟩ := List.mem_map.mp ((hsortperm.map Entry.id).subset hx2)
      subst he2x
      exact hdisj e2 he2 hx1

theorem select_budgeted_ok_sum {σ : Type} {M : RandModel σ} {bucket : BucketConfig}
    {filtered : List Entry} {k : Nat} {budget : Int} {rng : σ} {sel : List Entry} {rng2 : σ}
    (h : select_budgeted M bucket filtered k budget rng = Except.ok (sel, rng2)) :
    (sel.map val).sum ≤ budget := by
  unfold select_budgeted at h
  dsimp only at h
  by_cases hge : k ≥ filtered.length
  · rw [if_pos hge] at h
    split at h
    · exact absurd h (by simp)
    · rename_i selected heq
      simp only [Except.ok.injEq, Prod.mk.injEq] at h
      obtain ⟨h1, _⟩ := h
      subst h1
      exact (repair_phase_ok heq).2.2
  · rw [if_neg hge] at h
    split at h
    · exact absurd h (by simp)
    · rename_i selected heq
      simp only [Except.ok.injEq, Prod.mk.injEq] at h
      obtain ⟨h1, _⟩ := h
      subst h1
      exact (repair_phase_ok heq).2.2

theorem select_budgeted_ok_mem {σ : Type} {M : RandModel σ} (hS : SampleSubperm M)
    {bucket : BucketConfig} {filtered : List Entry} {k : Nat} {budget : Int} {rng : σ}
    {sel : List Entry} {rng2 : σ}
    (h : select_budgeted M bucket filtered k budget rng = Except.ok (sel, rng2)) :
    (∀ e ∈ sel, e ∈ filtered) ∧
      ((filtered.map Entry.id).Nodup → (sel.map Entry.id).Nodup) := by
  unfold select_budgeted at h
  dsimp only at h
  have hdisj : ∀ (ini : List Entry),
      ∀ e ∈ filtered.filter (fun e => decide (e.id ∉ (ini.map Entry.id).toFinset)),
        e.id ∉ ini.map Entry.id := by
    intro ini e he
    have := List.of_mem_filter he
    simp only [decide_eq_true_eq, List.mem_toFinset] at this
    exact this
  by_cases hge : k ≥ filtered.length
  · rw [if_pos hge] at h
    split at h
    · exact absurd h (by simp)
    · rename_i selected heq
      simp only [Except.ok.injEq, Prod.mk.injEq] at h
      obtain ⟨h1, _⟩ := h
      subst h1
      exact picked_from_pool (List.Subperm.refl filtered) (List.filter_sublist filtered)
        (hdisj filtered) (repair_phase_ok heq).2.1
  · rw [if_neg hge] at h
    split at h
    · exact absurd h (by simp)
    · rename_i selected heq
      simp only [Except.ok.injEq, Prod.mk.injEq] at h
      obtain ⟨h1, _⟩ := h
      subst h1
      exact picked_from_pool (hS filtered k rng) (List.filter_sublist filtered)
        (hdisj _) (repair_phase_ok heq).2.1

theorem select_budgeted_ok_len {σ : Type} {M : RandModel σ} (hL : SampleLength M)
    {bucket : BucketConfig} {filtered : List Entry} {k : Nat} {budget : Int} {rng : σ}
    {sel : List Entry} {rng2 : σ} (hk : k ≤ filtered.length)
    (h : select_budgeted M bucket filtered k budget rng = Except.ok (sel, rng2)) :
    sel.length = k := by
  unfold select_budgeted at h
  dsimp only at h
  by_cases hge : k ≥ filtered.length
  · rw [if_pos hge] at h
    split at h
    · exact absurd h (by simp)
    · rename_i selected heq
      simp only [Except.ok.injEq, Prod.mk.injEq] at h
      obtain ⟨h1, _⟩ := h
      subst h1
      rw [(repair_phase_ok heq).1]
      exact Nat.le_antisymm hge hk
  · rw [if_neg hge] at h
    split at h
    · exact absurd h (by simp)
    · rename_i selected heq
      simp only [Except.ok.injEq, Prod.mk.injEq] at h
      obtain ⟨h1, _⟩ := h
      subst h1
      rw [(repair_phase_ok heq).1]
      exact hL filtered k rng hk

/-! ## Substring and filter helpers -/

theorem str_contains_self (s : String) : str_contains s s = true := by
  simp only [str_contains, containsSub, decide_eq_true_eq]
  exact ⟨[], [], by simp⟩

theorem str_contains_left {h n : String} (hc : str_contains h n = true) (a : String) :
    str_contains (a ++ h) n = true := by
  simp only [str_contains, containsSub, decide_eq_true_eq] at hc ⊢
  rw [String.data_append]
  obtain ⟨s, t, hst⟩ := hc
  exact ⟨a.data ++ s, t, by rw [← hst]; simp⟩

theorem str_contains_right {h n : String} (hc : str_contains h n = true) (b : String) :
    str_contains (h ++ b) n = true := by
  simp only [str_contains, containsSub, decide_eq_true_eq] at hc ⊢
  rw [String.data_append]
  obtain ⟨s, t, hst⟩ := hc
  exact ⟨s, t ++ b.data, by rw [← hst]; simp⟩

theorem mem_bucket_filtered {config : GeneratorConfig} {bucket : BucketConfig}
    {used : Finset Int} {c : List Entry} {e : Entry}
    (h : e ∈ bucket_filtered config bucket used c) :
    matches_bucket bucket e = true ∧ e ∈ c := by
  unfold bucket_filtered unique_filtered at h
  split at h
  · have h1 := List.mem_of_mem_filter h
    exact ⟨List.of_mem_filter h1, List.mem_of_mem_filter h1⟩
  · exact ⟨List.of_mem_filter h, List.mem_of_mem_filter h⟩

theorem mem_bucket_filtered_unused {config : GeneratorConfig} {bucket : BucketConfig}
    {used : Finset Int} {c : List Entry} {e : Entry}
    (hp : (config.global_prefer_unique || bucket.prefer_unique) = true)
    (h : e ∈ bucket_filtered config bucket used c) :
    e.id ∉ used := by
  unfold bucket_filtered unique_filtered at h
  rw [if_pos hp] at h
  have := List.of_mem_filter h
  simpa using this

theorem bucket_filtered_sublist (config : GeneratorConfig) (bucket : BucketConfig)
    (used : Finset Int) (c : List Entry) :
    List.Sublist (bucket_filtered config bucket used c) c := by
  unfold bucket_filtered unique_filtered
  split
  · exact (List.filter_sublist _).trans (List.filter_sublist c)
  · exact List.filter_sublist c

theorem bucket_filtered_ids_nodup {config : GeneratorConfig} {bucket : BucketConfig}
    {used : Finset Int} {c : List Entry} (hnd : (c.map Entry.id).Nodup) :
    ((bucket_filtered config bucket used c).map Entry.id).Nodup :=
  subperm_nodup (subperm_map Entry.id (bucket_filtered_sublist config bucket used c).subperm) hnd

/-! ## Feasibility bounds -/

theorem feasible_le_len (mc : Option Int) (slots : Option Nat) (bud : Option Int)
    (filtered : List Entry) :
    feasible_max_of mc slots bud filtered ≤ filtered.length := by
  unfold feasible_max_of
  cases mc <;> cases slots <;> cases bud <;> dsimp only <;> omega

theorem feasible_le_max_count {n : Int} (slots : Option Nat) (bud : Option Int)
    (filtered : List Entry) :
    feasible_max_of (some n) slots bud filtered ≤ n.toNat := by
  unfold feasible_max_of
  cases slots <;> cases bud <;> dsimp only <;> omega

theorem feasible_of_empty (mc : Option Int) (slots : Option Nat) (bud : Option Int)
    {filtered : List Entry} (h : filtered.isEmpty) :
    feasible_max_of mc slots bud filtered = 0 := by
  have h1 := feasible_le_len mc slots bud filtered
  have h2 : filtered = [] := List.isEmpty_iff.mp h
  subst h2
  simpa using h1

/-! ## Bucket-level lemmas -/

theorem selection_phase_used_eq {σ : Type} {M : RandModel σ}
    {bucket : BucketConfig} {config : GeneratorConfig} {used_ids : Finset Int}
    {current_results : List Entry} {candidates : List Entry} {rng : σ} {picked : List Entry}
    {used2 : Finset Int} {rng2 : σ}
    (h : bucket_selection_phase M bucket config used_ids current_results candidates rng =
      Except.ok (picked, used2, rng2)) :
    used2 = add_ids used_ids picked := by
  unfold bucket_selection_phase at h
  dsimp only at h
  split at h
  · split at h
    · exact absurd h (by simp)
    · simp only [Except.ok.injEq, Prod.mk.injEq] at h
      obtain ⟨h1, h2, _⟩ := h
      subst h1
      subst h2
      exact (add_ids_nil used_ids).symm
  · split at h
    · exact absurd h (by simp)
    · split at h
      · simp only [Except.ok.injEq, Prod.mk.injEq] at h
        obtain ⟨h1, h2, _⟩ := h
        subst h1
        subst h2
        exact (add_ids_nil used_ids).symm
      · split at h
        · simp only [Except.ok.injEq, Prod.mk.injEq] at h
          obtain ⟨h1, h2, _⟩ := h
          subst h1
          subst h2
          rfl
        · split at h
          · exact absurd h (by simp)
          · rename_i selected rngx heq
            simp only [Except.ok.injEq, Prod.mk.injEq] at h
            obtain ⟨h1, h2, _⟩ := h
            subst h1
            subst h2
            rfl

theorem selection_phase_ok_budget {σ : Type} {M : RandModel σ}
    {bucket : BucketConfig} {config : GeneratorConfig} {used_ids : Finset Int}
    {current_results : List Entry} {candidates : List Entry} {rng : σ} {picked : List Entry}
    {used2 : Finset Int} {rng2 : σ} {mv : Int}
    (hmv : config.max_total_value = some mv)
    (h : bucket_selection_phase M bucket config used_ids current_results candidates rng =
      Except.ok (picked, used2, rng2)) :
    (picked.map val).sum ≤ max 0 (mv - (_current_totals current_results).2) := by
  have hb : remaining_budget_of config current_results =
      some (max 0 (mv - (_current_totals current_results).2)) := by
    simp [remaining_budget_of, hmv]
  unfold bucket_selection_phase at h
  dsimp only at h
  rw [hb] at h
  dsimp only at h
  split at h
  · split at h
    · exact absurd h (by simp)
    · simp only [Except.ok.injEq, Prod.mk.injEq] at h
      obtain ⟨h1, _, _⟩ := h
      subst h1
      simp only [List.map_nil, List.sum_nil]
      omega
  · split at h
    · exact absurd h (by simp)
    · split at h
      · simp only [Except.ok.injEq, Prod.mk.injEq] at h
        obtain ⟨h1, _, _⟩ := h
        subst h1
        simp only [List.map_nil, List.sum_nil]
        omega
      · split at h
        · exact absurd h (by simp)
        · rename_i selected rngx heq
          simp only [Except.ok.injEq, Prod.mk.injEq] at h
          obtain ⟨h1, _, _⟩ := h
          subst h1
          exact select_budgeted_ok_sum heq

theorem msg_no_candidates_contains (bucket : BucketConfig) (mc : Nat) :
    str_contains (msg_no_candidates bucket mc) bucket.name = true ∧
    str_contains (msg_no_candidates bucket mc) (toString mc) = true ∧
    str_contains (msg_no_candidates bucket mc) "0" = true := by
  unfold msg_no_candidates
  refine ⟨?_, ?_, ?_⟩ <;>
    simp only [str_contains, containsSub, decide_eq_true_eq, String.data_append]
  · exact ⟨"Bucket ".data,
      (" requires at least " ++ toString mc ++ ", but 0 candidates match filters.").data,
      by simp [String.data_append]⟩
  · exact ⟨("Bucket " ++ bucket.name ++ " requires at least ").data,
      ", but 0 candidates match filters.".data, by simp [String.data_append]⟩
  · refine ⟨("Bucket " ++ bucket.name ++ " requires at least " ++ toString mc ++ ", but ").data,
      " candidates match filters.".data, ?_⟩
    simp only [String.data_append, List.append_assoc, List.append_cancel_left_eq]
    decide

theorem msg_cannot_meet_contains (bucket : BucketConfig) (mc fm : Nat)
    (slots : Option Nat) (bud : Option Int) :
    str_contains (msg_cannot_meet bucket mc fm slots bud) bucket.name = true ∧
    str_contains (msg_cannot_meet bucket mc fm slots bud) (toString mc) = true ∧
    str_contains (msg_cannot_meet bucket mc fm slots bud) (toString fm) = true := by
  unfold msg_cannot_meet
  refine ⟨?_, ?_, ?_⟩ <;>
    simp only [str_contains, containsSub, decide_eq_true_eq, String.data_append]
  · exact ⟨"Bucket ".data,
      (" cannot meet min_count=" ++ toString mc ++ ". Feasible max is " ++ toString fm ++
        " after filters" ++
        (match slots with
         | none => ""
         | some s => ", remaining_item_slots=" ++ toString s) ++
        (match bud with
         | none => ""
         | some b => ", remaining_budget=" ++ toString b) ++ ".").data,
      by simp [String.data_append]⟩
  · exact ⟨("Bucket " ++ bucket.name ++ " cannot meet min_count=").data,
      (". Feasible max is " ++ toString fm ++ " after filters" ++
        (match slots with
         | none => ""
         | some s => ", remaining_item_slots=" ++ toString s) ++
        (match bud with
         | none => ""
         | some b => ", remaining_budget=" ++ toString b) ++ ".").data,
      by simp [String.data_append]⟩
  · exact ⟨("Bucket " ++ bucket.name ++ " cannot meet min_count=" ++ toString mc ++
        ". Feasible max is ").data,
      (" after filters" ++
        (match slots with
         | none => ""
         | some s => ", remaining_item_slots=" ++ toString s) ++
        (match bud with
         | none => ""
         | some b => ", remaining_budget=" ++ toString b) ++ ".").data,
      by simp [String.data_append]⟩

theorem selection_phase_infeasible {σ : Type} (M : RandModel σ)
    (bucket : BucketConfig) (config : GeneratorConfig) (used_ids : Finset Int)
    (current_results : List Entry) (candidates : List Entry) (rng : σ)
    (hfe : feasible_max_of (effective_max_count bucket) (remaining_slots_of config current_results)
        (remaining_budget_of config current_results)
        (bucket_filtered config bucket used_ids candidates) <
      effective_min_count bucket) :
    ∃ e, bucket_selection_phase M bucket config used_ids current_results candidates rng =
        Except.error e ∧
      str_contains e.msg bucket.name = true ∧
      str_contains e.msg (toString (effective_min_count bucket)) = true ∧
      str_contains e.msg
        (toString (feasible_max_of (effective_max_count bucket)
          (remaining_slots_of config current_results)
          (remaining_budget_of config current_results)
          (bucket_filtered config bucket used_ids candidates))) = true := by
  by_cases hemp :
      (bucket_filtered config bucket used_ids candidates).isEmpty = true
  · have hf0 := feasible_of_empty (effective_max_count bucket)
      (remaining_slots_of config current_results)
      (remaining_budget_of config current_results) hemp
    have hmin : effective_min_count bucket > 0 := by omega
    refine ⟨⟨msg_no_candidates bucket (effective_min_count bucket)⟩, ?_, ?_, ?_, ?_⟩
    · unfold bucket_selection_phase
      dsimp only
      rw [if_pos hemp, if_pos hmin]
    · exact (msg_no_candidates_contains bucket (effective_min_count bucket)).1
    · exact (msg_no_candidates_contains bucket (effective_min_count bucket)).2.1
    · rw [hf0]
      exact (msg_no_candidates_contains bucket (effective_min_count bucket)).2.2
  · refine ⟨⟨msg_cannot_meet bucket (effective_min_count bucket)
      (feasible_max_of (effective_max_count bucket) (remaining_slots_of config current_results)
        (remaining_budget_of config current_results)
        (bucket_filtered config bucket used_ids candidates))
      (remaining_slots_of config current_results)
      (remaining_budget_of config current_results)⟩, ?_, ?_, ?_, ?_⟩
    · unfold bucket_selection_phase
      dsimp only
      rw [if_neg hemp, if_pos hfe]
    · exact (msg_cannot_meet_contains bucket _ _ _ _).1
    · exact (msg_cannot_meet_contains bucket _ _ _ _).2.1
    · exact (msg_cannot_meet_contains bucket _ _ _ _).2.2

theorem selection_phase_ok_matches {σ : Type} {M : RandModel σ} (hS : SampleSubperm M)
    {bucket : BucketConfig} {config : GeneratorConfig} {used_ids : Finset Int}
    {current_results : List Entry} {candidates : List Entry} {rng : σ} {picked : List Entry}
    {used2 : Finset Int} {rng2 : σ}
    (h : bucket_selection_phase M bucket config used_ids current_results candidates rng =
      Except.ok (picked, used2, rng2)) :
    ∀ e ∈ picked, matches_bucket bucket e = true := by
  unfold bucket_selection_phase at h
  dsimp only at h
  split at h
  · split at h
    · exact absurd h (by simp)
    · simp only [Except.ok.injEq, Prod.mk.injEq] at h
      obtain ⟨h1, _, _⟩ := h
      subst h1
      simp
  · split at h
    · exact absurd h (by simp)
    · split at h
      · simp only [Except.ok.injEq, Prod.mk.injEq] at h
        obtain ⟨h1, _, _⟩ := h
        subst h1
        simp
      · split at h
        · split at h
          · simp only [Except.ok.injEq, Prod.mk.injEq] at h
            obtain ⟨h1, _, _⟩ := h
            subst h1
            intro e he
            exact (mem_bucket_filtered ((hS _ _ _).subset he)).1
          · simp only [Except.ok.injEq, Prod.mk.injEq] at h
            obtain ⟨h1, _, _⟩ := h
            subst h1
            intro e he
            exact (mem_bucket_filtered he).1
        · split at h
          · exact absurd h (by simp)
          · rename_i selected rngx heq
            simp only [Except.ok.injEq, Prod.mk.injEq] at h
            obtain ⟨h1, _, _⟩ := h
            subst h1
            intro e he
            exact (mem_bucket_filtered ((select_budgeted_ok_mem hS heq).1 e he)).1

theorem selection_phase_ok_unique {σ : Type} {M : RandModel σ} (hS : SampleSubperm M)
    {bucket : BucketConfig} {config : GeneratorConfig} {used_ids : Finset Int}
    {current_results : List Entry} {candidates : List Entry} {rng : σ} {picked : List Entry}
    {used2 : Finset Int} {rng2 : σ}
    (hnd : (candidates.map Entry.id).Nodup)
    (hp : (config.global_prefer_unique || bucket.prefer_unique) = true)
    (h : bucket_selection_phase M bucket config used_ids current_results candidates rng =
      Except.ok (picked, used2, rng2)) :
    (picked.map Entry.id).Nodup ∧ ∀ e ∈ picked, e.id ∉ used_ids := by
  have hfnd : ((bucket_filtered config bucket used_ids
      candidates).map Entry.id).Nodup :=
    bucket_filtered_ids_nodup hnd
  unfold bucket_selection_phase at h
  dsimp only at h
  split at h
  · split at h
    · exact absurd h (by simp)
    · simp only [Except.ok.injEq, Prod.mk.injEq] at h
      obtain ⟨h1, _, _⟩ := h
      subst h1
      simp
  · split at h
    · exact absurd h (by simp)
    · split at h
      · simp only [Except.ok.injEq, Prod.mk.injEq] at h
        obtain ⟨h1, _, _⟩ := h
        subst h1
        simp
      · split at h
        · split at h
          · simp only [Except.ok.injEq, Prod.mk.injEq] at h
            obtain ⟨h1, _, _⟩ := h
            subst h1
            refine ⟨subperm_nodup (subperm_map Entry.id (hS _ _ _)) hfnd, ?_⟩
            intro e he
            exact mem_bucket_filtered_unused hp ((hS _ _ _).subset he)
          · simp only [Except.ok.injEq, Prod.mk.injEq] at h
            obtain ⟨h1, _, _⟩ := h
            subst h1
            refine ⟨hfnd, ?_⟩
            intro e he
            exact mem_bucket_filtered_unused hp he
        · split at h
          · exact absurd h (by simp)
          · rename_i selected rngx heq
            simp only [Except.ok.injEq, Prod.mk.injEq] at h
            obtain ⟨h1, _, _⟩ := h
            subst h1
            obtain ⟨hmem, hnodup⟩ := select_budgeted_ok_mem hS heq
            refine ⟨hnodup hfnd, ?_⟩
            intro e he
            exact mem_bucket_filtered_unused hp (hmem e he)

theorem selection_phase_ok_max_count {σ : Type} {M : RandModel σ}
    {bucket : BucketConfig} {config : GeneratorConfig} {used_ids : Finset Int}
    {current_results : List Entry} {candidates : List Entry} {rng : σ} {picked : List Entry}
    {used2 : Finset Int} {rng2 : σ} {n : Int}
    (hR : RandintInRange M) (hL : SampleLength M)
    (hmc : bucket.max_count = some n) (hn : 0 < n)
    (h : bucket_selection_phase M bucket config used_ids current_results candidates rng =
      Except.ok (picked, used2, rng2)) :
    (picked.length : Int) ≤ n := by
  have hemc : effective_max_count bucket = some n := by
    unfold effective_max_count
    rw [hmc]
    dsimp only
    rw [if_neg (by omega)]
  unfold bucket_selection_phase at h
  dsimp only at h
  rw [hemc] at h
  split at h
  · split at h
    · exact absurd h (by simp)
    · simp only [Except.ok.injEq, Prod.mk.injEq] at h
      obtain ⟨h1, _, _⟩ := h
      subst h1
      simp
      omega
  · split at h
    · exact absurd h (by simp)
    · rename_i hge
      have hflen := feasible_le_len (some n) (remaining_slots_of config current_results)
        (remaining_budget_of config current_results)
        (bucket_filtered config bucket used_ids candidates)
      have hfmax := feasible_le_max_count (remaining_slots_of config current_results)
        (remaining_budget_of config current_results)
        (bucket_filtered config bucket used_ids candidates) (n := n)
      have hminle : effective_min_count bucket ≤ feasible_max_of (some n)
          (remaining_slots_of config current_results)
          (remaining_budget_of config current_results)
          (bucket_filtered config bucket used_ids candidates) := by
        omega
      have hrand := hR (effective_min_count bucket) _ rng hminle
      split at h
      · simp only [Except.ok.injEq, Prod.mk.injEq] at h
        obtain ⟨h1, _, _⟩ := h
        subst h1
        simp
        omega
      · split at h
        · split at h
          · rename_i hlt
            simp only [Except.ok.injEq, Prod.mk.injEq] at h
            obtain ⟨h1, _, _⟩ := h
            subst h1
            rw [hL _ _ _ (by omega)]
            omega
          · rename_i hlt
            simp only [Except.ok.injEq, Prod.mk.injEq] at h
            obtain ⟨h1, _, _⟩ := h
            subst h1
            omega
        · split at h
          · exact absurd h (by simp)
          · rename_i selected rngx heq
            simp only [Except.ok.injEq, Prod.mk.injEq] at h
            obtain ⟨h1, _, _⟩ := h
            subst h1
            rw [select_budgeted_ok_len hL (by omega) heq]
            omega

/-! ## Final-validation lemmas -/

theorem check_gt_none_iff {label : String} {x : Int} {b : Option Int} :
    check_gt label x b = none ↔
      (match b with
       | none => true
       | some v => decide (x ≤ v)) = true := by
  unfold check_gt
  cases b with
  | none => simp
  | some v =>
    dsimp only
    split <;> rename_i hv <;> simp <;> omega

theorem check_lt_none_iff {label : String} {x : Int} {b : Option Int} :
    check_lt label x b = none ↔
      (match b with
       | none => true
       | some v => decide (v ≤ x)) = true := by
  unfold check_lt
  cases b with
  | none => simp
  | some v =>
    dsimp only
    split <;> rename_i hv <;> simp <;> omega

theorem final_validate_ok {config : GeneratorConfig} {res l : List Entry}
    (h : final_validate config res = Except.ok l) :
    l = res ∧ bounds_ok config res = true := by
  unfold final_validate at h
  dsimp only at h
  split at h
  · exact absurd h (by simp)
  · rename_i h1
    split at h
    · exact absurd h (by simp)
    · rename_i h2
      split at h
      · exact absurd h (by simp)
      · rename_i h3
        split at h
        · exact absurd h (by simp)
        · rename_i h4
          simp only [Except.ok.injEq] at h
          refine ⟨h.symm, ?_⟩
          unfold bounds_ok
          dsimp only
          rw [Bool.and_eq_true, Bool.and_eq_true, Bool.and_eq_true]
          exact ⟨⟨⟨check_gt_none_iff.mp h1, check_gt_none_iff.mp h2⟩,
            check_lt_none_iff.mp h3⟩, check_lt_none_iff.mp h4⟩

theorem final_validate_fail {config : GeneratorConfig} {res : List Entry}
    (hb : bounds_ok config res = false) :
    ∃ e, final_validate config res = Except.error e := by
  unfold final_validate
  dsimp only
  cases h1 : check_gt "Global max_items violated after generation: "
      ((_current_totals res).1 : Int) config.max_items with
  | some e => exact ⟨e, rfl⟩
  | none =>
    cases h2 : check_gt "Global max_total_value violated after generation: "
        (_current_totals res).2 config.max_total_value with
    | some e => exact ⟨e, rfl⟩
    | none =>
      cases h3 : check_lt "Global min_items not met: "
          ((_current_totals res).1 : Int) config.min_items with
      | some e => exact ⟨e, rfl⟩
      | none =>
        cases h4 : check_lt "Global min_total_value not met: "
            (_current_totals res).2 config.min_total_value with
        | some e => exact ⟨e, rfl⟩
        | none =>
          exfalso
          have : bounds_ok config res = true := by
            unfold bounds_ok
            dsimp only
            rw [Bool.and_eq_true, Bool.and_eq_true, Bool.and_eq_true]
            exact ⟨⟨⟨check_gt_none_iff.mp h1, check_gt_none_iff.mp h2⟩,
              check_lt_none_iff.mp h3⟩, check_lt_none_iff.mp h4⟩
          rw [this] at hb
          exact absurd hb (by simp)

/-! ## Whole-run structure -/

theorem run_buckets_ok_nil {σ : Type} {M : RandModel σ}
    {search : EntryFilters → Nat → Nat → String → List Entry}
    {config : GeneratorConfig} {buckets : List BucketConfig} {results : List Entry}
    {used : Finset Int} {rng : σ} {out : List Entry} {used2 : Finset Int} {rng2 : σ}
    (h : run_buckets M search config buckets results used rng =
      Except.ok (out, used2, rng2)) :
    buckets = [] ∧ out = results ∧ used2 = used ∧ rng2 = rng := by
  cases buckets with
  | nil =>
    unfold run_buckets at h
    simp only [Except.ok.injEq, Prod.mk.injEq] at h
    obtain ⟨h1, h2, h3⟩ := h
    exact ⟨rfl, h1.symm, h2.symm, h3.symm⟩
  | cons b bs =>
    unfold run_buckets at h
    exact absurd h (by simp [_generate_bucket])

/-! ## Random-model instance facts -/

theorem randLo_randint : RandintInRange RandLo :=
  fun lo _ _ h => ⟨le_refl lo, h⟩

theorem randHi_randint : RandintInRange RandHi :=
  fun _ hi _ h => ⟨h, le_refl hi⟩

theorem randNat_randint : RandintInRange RandNat :=
  fun lo _ _ h => ⟨le_refl lo, h⟩

theorem randLo_subperm : SampleSubperm RandLo :=
  fun l k _ => (List.take_sublist k l).subperm

theorem randHi_subperm : SampleSubperm RandHi :=
  fun l k _ => (List.take_sublist k l).subperm

theorem randNat_subperm : SampleSubperm RandNat :=
  fun l k _ => (List.take_sublist k l).subperm

theorem randLo_length : SampleLength RandLo := by
  intro l k s hk
  simp only [RandLo, List.length_take]
  omega

theorem randHi_length : SampleLength RandHi := by
  intro l k s hk
  simp only [RandHi, List.length_take]
  omega

theorem randNat_length : SampleLength RandNat := by
  intro l k s hk
  simp only [RandNat, List.length_take]
  omega

/-! ## Serialization round-trip lemmas -/

theorem decOptInt_enc (x : Option Int) : decOptInt (encOptInt x) = x := by
  cases x <;> rfl

theorem decOptStr_enc (x : Option String) : decOptStr (encOptStr x) = x := by
  cases x <;> rfl

theorem decOptBool_enc (x : Option Bool) : decOptBool (encOptBool x) = x := by
  cases x <;> rfl

theorem decOptListStr_enc (x : Option (List String)) :
    decOptListStr (encOptListStr x) = x := by
  cases x with
  | none => rfl
  | some l =>
    simp only [encOptListStr, decOptListStr, Option.some.injEq]
    induction l with
    | nil => rfl
    | cons s rest ih => simp only [List.map_cons, List.filterMap_cons, decOptStr, ih]

theorem bucket_roundtrip (b : BucketConfig) :
    bucket_from_dict (bucket_to_dict b) = b := by
  unfold bucket_from_dict bucket_to_dict
  cases b with
  | mk name min_count max_count allowed_rarities type_contains_any min_value
      max_value att prefer_unique extra =>
    simp [jGet, jGetD, jLookup, decObj, decStr, decBool,
      decOptInt_enc, decOptStr_enc, decOptBool_enc, decOptListStr_enc]

theorem config_roundtrip (cfg : GeneratorConfig) :
    config_from_dict (config_to_dict cfg) = cfg := by
  unfold config_from_dict config_to_dict
  cases cfg with
  | mk label min_items max_items min_total_value max_total_value gpu random_seed
      buckets notes extra =>
    simp only [jGet, jGetD, jLookup, decObj, decBool,
      decOptInt_enc, decOptStr_enc, decOptListStr_enc]
    simp [List.map_map, decOptInt_enc, decOptStr_enc]
    have h : List.map (bucket_from_dict ∘ bucket_to_dict) buckets = List.map id buckets :=
      List.map_congr_left (fun b _ => by simpa using bucket_roundtrip b)
    rw [h]
    exact List.map_id buckets

/-! ## Property unfolding for bucket filters -/

theorem matches_bucket_spec {bucket : BucketConfig} {e : Entry}
    (h : matches_bucket bucket e = true) :
    (bucket.type_contains_any.getD [] ≠ [] →
      ∃ sub ∈ bucket.type_contains_any.getD [],
        containsSub (lowerList e.type) (lowerList sub) = true) ∧
    ((bucket.min_value.isSome ∨ bucket.max_value.isSome) → e.value.isSome) ∧
    (∀ mn v, bucket.min_value = some mn → e.value = some v → mn ≤ v) ∧
    (∀ mx v, bucket.max_value = some mx → e.value = some v → v ≤ mx) := by
  unfold matches_bucket at h
  dsimp only at h
  rw [Bool.and_eq_true] at h
  obtain ⟨h1, h2⟩ := h
  refine ⟨?_, ?_, ?_, ?_⟩
  · intro hne
    rw [if_neg (by rw [List.isEmpty_iff]; exact hne)] at h1
    exact List.any_eq_true.mp h1
  · intro hv
    cases hev : e.value with
    | none =>
      rw [hev] at h2
      dsimp only at h2
      rw [Bool.and_eq_true] at h2
      rcases hv with hv | hv
      · obtain ⟨v, hvv⟩ := Option.isSome_iff_exists.mp hv
        rw [hvv] at h2
        exact absurd h2.1 (by simp)
      · obtain ⟨v, hvv⟩ := Option.isSome_iff_exists.mp hv
        rw [hvv] at h2
        exact absurd h2.2 (by simp)
    | some v => simp [hev]
  · intro mn v hmn hv
    rw [hv] at h2
    dsimp only at h2
    rw [Bool.and_eq_true] at h2
    have h3 := h2.1
    rw [hmn] at h3
    dsimp only at h3
    exact of_decide_eq_true h3
  · intro mx v hmx hv
    rw [hv] at h2
    dsimp only at h2
    rw [Bool.and_eq_true] at h2
    have h3 := h2.2
    rw [hmx] at h3
    dsimp only at h3
    exact of_decide_eq_true h3

/-! ## Claim theorems -/

/-- Claim C1: whenever `run_generator` returns a list, the totals satisfy all
four set global bounds (count within min/max items, value within min/max
total value); and whenever the bucket phase completes with totals violating
any set bound, `run_generator` raises a `GeneratorError` instead of
returning. -/
theorem run_generator_respects_global_bounds {σ : Type} (M : RandModel σ)
    (search : EntryFilters → Nat → Nat → String → List Entry)
    (config : GeneratorConfig) (ambient : σ) :
    (∀ l, run_generator M search config ambient = Except.ok l →
      bounds_ok config l = true) ∧
    (∀ res used rng,
      run_buckets M search config config.buckets [] ∅ (init_rng M config ambient) =
        Except.ok (res, used, rng) →
      bounds_ok config res = false →
      ∃ g, run_generator M search config ambient =
        Except.error (EngineExc.generatorError g)) := by
  constructor
  · intro l h
    unfold run_generator at h
    split at h
    · exact absurd h (by simp)
    · rename_i res usedx rngx heq
      split at h
      · exact absurd h (by simp)
      · rename_i l2 heq2
        simp only [Except.ok.injEq] at h
        obtain ⟨h1, hb⟩ := final_validate_ok heq2
        rw [← h, h1]
        exact hb
  · intro res used rng heq hb
    obtain ⟨g, hg⟩ := final_validate_fail hb
    refine ⟨g, ?_⟩
    unfold run_generator
    rw [heq]
    dsimp only
    rw [hg]

/-- Witness for C1: a bucket-less run returns and satisfies its bound, and a
bucket-less run violating `min_items` raises a `GeneratorError`. -/
theorem run_generator_respects_global_bounds_witness :
    bounds_ok cfgEmptyOk [] = true ∧
      (∃ g, run_generator RandLo searchAB cfgMinOneEmpty () =
        Except.error (EngineExc.generatorError g)) :=
  ⟨(run_generator_respects_global_bounds RandLo searchAB cfgEmptyOk ()).1 [] (by decide),
   (run_generator_respects_global_bounds RandLo searchAB cfgMinOneEmpty ()).2 [] ∅ ()
     (by decide) (by decide)⟩

/-- Claim C2: the budget-repair loop terminates on every input — with fuel
exceeding the `total - budget` gap it always produces an answer (each
accepted swap strictly shrinks that gap), and any selection it returns has
the same size as the input selection and, when the tracked total is the
selection's value sum, is within budget; the over-budget dead ends
surface as `GeneratorError` values rather than further looping. -/
theorem budget_repair_loop_terminates (bucket : BucketConfig) (k : Nat) (budget : Int)
    (fuel : Nat) (selected remaining : List Entry) (total : Int)
    (hfuel : (total - budget).toNat < fuel) :
    (∃ r, budget_repair_loop bucket k budget fuel selected remaining total = some r) ∧
    (∀ out, budget_repair_loop bucket k budget fuel selected remaining total =
        some (Except.ok out) →
      out.length = selected.length ∧
        ((selected.map val).sum = total → (out.map val).sum ≤ budget)) ∧
    (total > budget → remaining = [] →
      budget_repair_loop bucket k budget fuel selected remaining total =
        some (Except.error ⟨msg_cannot_pick bucket k budget⟩)) ∧
    (∀ rmin rest smax, total > budget → remaining = rmin :: rest →
      pick_max_by_val selected = some smax → val rmin ≥ val smax →
      budget_repair_loop bucket k budget fuel selected remaining total =
        some (Except.error ⟨msg_cannot_reduce bucket k budget⟩)) := by
  refine ⟨?_, ?_, ?_, ?_⟩
  · exact Option.isSome_iff_exists.mp
      (budget_repair_loop_total bucket k budget fuel selected remaining total hfuel)
  · intro out h
    obtain ⟨h1, _, h3⟩ := budget_repair_loop_ok bucket k budget fuel selected remaining total out h
    exact ⟨h1, h3⟩
  · intro hgt hrem
    subst hrem
    cases fuel with
    | zero => omega
    | succ n =>
      simp only [budget_repair_loop]
      rw [if_neg (by omega)]
  · intro rmin rest smax hgt hrem hpick hge
    subst hrem
    cases fuel with
    | zero => omega
    | succ n =>
      simp only [budget_repair_loop]
      rw [if_neg (by omega), hpick]
      dsimp only
      rw [if_pos hge]

/-- Witness for C2 on a concrete over-budget selection. -/
theorem budget_repair_loop_terminates_witness :
    ((10 : Int) - 5).toNat < 6 ∧
      (∃ r, budget_repair_loop bktMain 1 5 6 [entA] [entB] 10 = some r) :=
  ⟨by decide, (budget_repair_loop_terminates bktMain 1 5 6 [entA] [entB] 10 (by decide)).1⟩

/-- Claim C3: whenever a global `max_total_value` is set, the remaining
budget is `max_total_value` minus the value consumed so far, clamped at 0,
and any selection the budgeted branch returns against that budget sums to
at most it. -/
theorem budgeted_branch_within_remaining_budget {σ : Type} (M : RandModel σ)
    (bucket : BucketConfig) (config : GeneratorConfig) (current_results : List Entry)
    (filtered : List Entry) (k : Nat) (rng : σ) (sel : List Entry) (rng2 : σ)
    (mv budget : Int)
    (hmv : config.max_total_value = some mv)
    (hb : remaining_budget_of config current_results = some budget)
    (h : select_budgeted M bucket filtered k budget rng = Except.ok (sel, rng2)) :
    (sel.map val).sum ≤ budget ∧
      budget = max 0 (mv - (_current_totals current_results).2) := by
  refine ⟨select_budgeted_ok_sum h, ?_⟩
  unfold remaining_budget_of at hb
  rw [hmv] at hb
  simp only [Option.map_some', Option.some.injEq] at hb
  exact hb.symm

/-- Witness for C3: budget 5 from `max_total_value = 5` with nothing yet
consumed; the budgeted branch swaps down to a within-budget pick. -/
theorem budgeted_branch_within_remaining_budget_witness :
    (([entB].map val).sum ≤ 5) ∧ ((5 : Int) = max 0 (5 - (_current_totals []).2)) :=
  budgeted_branch_within_remaining_budget RandLo bktMain cfgBudget5 [] [entA, entB]
    1 () [entB] () 5 5 rfl (by decide) (by decide)

/-- Claim C4 (code bug evidence): at an infeasible bucket — `min_count` 3
against a two-row catalog — the selector as written does not raise the
claimed `GeneratorError` naming the bucket, its `min_count` and the
feasible bound: it raises `TypeError` at the `EntryFilters` construction,
before the feasibility check is reached. -/
theorem infeasible_bucket_type_error :
    _generate_bucket RandLo searchAB bktTriple cfgPlain ∅ [] () =
      Except.error (EngineExc.typeError
        "EntryFilters.__init__ got an unexpected keyword argument type_equals") := rfl

/-- Claim C5 (code bug evidence): the selector never returns items for its
in-memory filters to constrain — on a typed, value-bounded bucket over a
three-row catalog it raises `TypeError` at the `EntryFilters`
construction, before the in-memory filtering and selection run. -/
theorem typed_bucket_type_error :
    _generate_bucket RandLo searchABC bktTyped cfgPlain ∅ [] () =
      Except.error (EngineExc.typeError
        "EntryFilters.__init__ got an unexpected keyword argument type_equals") := rfl

/-- Claim C6: with `global_prefer_unique` set (or every bucket preferring
uniqueness), no identifier appears twice: any list `run_generator` returns
has pairwise-distinct ids (in the source as written, the returning runs
are the bucket-less ones, which return the empty list), and in the
selection logic each bucket excludes already-consumed ids from its pool
and selects without replacement, so any selection from distinct-id
candidate rows has pairwise-distinct ids, none previously consumed. -/
theorem prefer_unique_no_duplicate_ids {σ : Type} (M : RandModel σ)
    (search : EntryFilters → Nat → Nat → String → List Entry)
    (config : GeneratorConfig) (ambient : σ)
    (hS : SampleSubperm M)
    (hp : config.global_prefer_unique = true ∨ ∀ b ∈ config.buckets, b.prefer_unique = true) :
    (∀ l, run_generator M search config ambient = Except.ok l →
      (l.map Entry.id).Nodup) ∧
    (∀ bucket ∈ config.buckets, ∀ (candidates : List Entry) (used : Finset Int)
        (current : List Entry) (rng : σ) (picked : List Entry) (used2 : Finset Int) (rng2 : σ),
      (candidates.map Entry.id).Nodup →
      bucket_selection_phase M bucket config used current candidates rng =
        Except.ok (picked, used2, rng2) →
      (picked.map Entry.id).Nodup ∧ ∀ e ∈ picked, e.id ∉ used) := by
  constructor
  · intro l h
    unfold run_generator at h
    split at h
    · exact absurd h (by simp)
    · rename_i res usedx rngx heq
      obtain ⟨hnil, hres, _, _⟩ := run_buckets_ok_nil heq
      split at h
      · exact absurd h (by simp)
      · rename_i l2 heq2
        simp only [Except.ok.injEq] at h
        obtain ⟨h1, _⟩ := final_validate_ok heq2
        rw [← h, h1, hres]
        simp
  · intro bucket hbmem candidates used current rng picked used2 rng2 hnd h
    have hpb : (config.global_prefer_unique || bucket.prefer_unique) = true := by
      rcases hp with h1 | h1
      · rw [h1, Bool.true_or]
      · rw [h1 bucket hbmem, Bool.or_true]
    exact selection_phase_ok_unique hS hnd hpb h

/-- Witness for C6: a returning run has distinct ids, and a concrete
selection from two distinct-id candidates is duplicate-free and disjoint
from the consumed set. -/
theorem prefer_unique_no_duplicate_ids_witness :
    (([] : List Entry).map Entry.id).Nodup ∧
      (([entA].map Entry.id).Nodup ∧ ∀ e ∈ [entA], e.id ∉ (∅ : Finset Int)) :=
  ⟨(prefer_unique_no_duplicate_ids RandLo searchAB cfgEmptyOk () randLo_subperm
      (Or.inl rfl)).1 [] (by decide),
   (prefer_unique_no_duplicate_ids RandLo searchAB cfgPlain () randLo_subperm
      (Or.inl rfl)).2 bktMain (List.mem_cons_self bktMain []) [entA, entB] ∅ [] () [entA]
      (insert entA.id ∅) () (by decide) (by decide)⟩

/-- Claim C7: for a fixed non-None random seed, fixed config and fixed
repository, two calls to `run_generator` produce identical outcomes (the
same list, item for item, or the same error): the random source is
initialised from the seed once at the start of the call and never
re-seeded, so the ambient random state is irrelevant. -/
theorem fixed_seed_deterministic {σ : Type} (M : RandModel σ)
    (search : EntryFilters → Nat → Nat → String → List Entry)
    (config : GeneratorConfig) (s : Int)
    (hseed : config.random_seed = some s) (a1 a2 : σ) :
    run_generator M search config a1 = run_generator M search config a2 := by
  unfold run_generator init_rng
  rw [hseed]

/-- Witness for C7 with two different ambient states. -/
theorem fixed_seed_deterministic_witness :
    cfgSeededEmpty.random_seed = some 42 ∧
      run_generator RandNat searchAB cfgSeededEmpty 0 =
        run_generator RandNat searchAB cfgSeededEmpty 99 :=
  ⟨rfl, fixed_seed_deterministic RandNat searchAB cfgSeededEmpty 42 rfl 0 99⟩

/-- Claim C8 counterexample: in the selection logic the selector applies to
its candidate rows (the code the claim's cited lines belong to), a bucket
with `max_count = 0` — a non-negative integer — does not contribute at
most 0 items: the engine interprets `max_count <= 0` as unbounded and here
contributes two items. -/
theorem max_count_zero_unbounded_counterexample :
    bktZeroMax.max_count = some 0 ∧
    bucket_selection_phase RandHi bktZeroMax cfgPlain ∅ [] [entA, entB] () =
      Except.ok ([entA, entB], insert entB.id (insert entA.id ∅), ()) ∧
    ¬ (([entA, entB].length : Int) ≤ 0) :=
  ⟨rfl, by decide, by decide⟩

/-- Claim C8 (amended): in the selection logic, a bucket whose `max_count`
is set to a positive integer `n` contributes at most `n` items; an absent,
zero, or negative `max_count` means unbounded, limited only by the other
constraints. -/
theorem positive_max_count_bounds_bucket {σ : Type} (M : RandModel σ)
    (bucket : BucketConfig) (config : GeneratorConfig) (used_ids : Finset Int)
    (current_results : List Entry) (candidates : List Entry) (rng : σ)
    (picked : List Entry) (used2 : Finset Int) (rng2 : σ) (n : Int)
    (hR : RandintInRange M) (hL : SampleLength M)
    (hmc : bucket.max_count = some n) (hn : 0 < n)
    (h : bucket_selection_phase M bucket config used_ids current_results candidates rng =
      Except.ok (picked, used2, rng2)) :
    (picked.length : Int) ≤ n :=
  selection_phase_ok_max_count hR hL hmc hn h

/-- Witness for the amended C8 with `max_count = 1`. -/
theorem positive_max_count_bounds_bucket_witness :
    bktOneMax.max_count = some 1 ∧ (0 : Int) < 1 ∧ (([entA].length : Int) ≤ 1) :=
  ⟨rfl, by decide,
    positive_max_count_bounds_bucket RandHi bktOneMax cfgPlain ∅ [] [entA, entB] ()
      [entA] (insert entA.id ∅) () 1 randHi_randint randHi_length rfl (by decide)
      (by decide)⟩

/-- Claim C9 counterexample: the selection logic does mutate the
caller-supplied `used_ids`: starting from the empty set it hands back a
strictly larger set containing the picked id. -/
theorem selector_mutates_used_ids_counterexample :
    bucket_selection_phase RandLo bktMain cfgPlain ∅ [] [entA, entB] () =
      Except.ok ([entA], insert entA.id ∅, ()) ∧
    insert entA.id (∅ : Finset Int) ≠ (∅ : Finset Int) :=
  ⟨by decide, by decide⟩

/-- Claim C9 (amended): the selection logic adds the returned items'
identifiers to `used_ids` itself — the set it hands back is exactly the
input set plus the picked ids — and the orchestrator merely appends the
returned items to the running selection. -/
theorem selector_adds_picked_ids_to_used {σ : Type} (M : RandModel σ)
    (bucket : BucketConfig) (config : GeneratorConfig) (used_ids : Finset Int)
    (current_results : List Entry) (candidates : List Entry) (rng : σ)
    (picked : List Entry) (used2 : Finset Int) (rng2 : σ)
    (h : bucket_selection_phase M bucket config used_ids current_results candidates rng =
      Except.ok (picked, used2, rng2)) :
    used2 = add_ids used_ids picked ∧
      ∀ x, x ∈ used2 ↔ (x ∈ used_ids ∨ x ∈ picked.map Entry.id) := by
  have h1 := selection_phase_used_eq h
  exact ⟨h1, fun x => by rw [h1]; exact add_ids_mem picked used_ids x⟩

/-- Witness for the amended C9. -/
theorem selector_adds_picked_ids_to_used_witness :
    insert entA.id (∅ : Finset Int) = add_ids ∅ [entA] :=
  (selector_adds_picked_ids_to_used RandLo bktMain cfgPlain ∅ [] [entA, entB] ()
    [entA] (insert entA.id ∅) () (by decide)).1

/-- Claim C10: config serialization round-trips — deserializing the
serialized form of any `GeneratorConfig` returns a structurally equal
config, nested buckets included. -/
theorem config_json_round_trip (cfg : GeneratorConfig) :
    config_from_json (config_to_json cfg) = Except.ok cfg :=
  congrArg Except.ok (config_roundtrip cfg)

end TowneCodex
